import Mathlib

/-!
Formal model of the helix print-modification and phase-instrumentation
engine of the helixscreen repository (the Moonraker plugin component
helix_print, exercised by tests/test_helix_print.py).  The plugin source
itself is not shipped in this tree, so the definitions below are modelled
from the design specification, with concrete constants (marker sentinels,
directive text, phase table) pinned by the unit-test suite.  Gcode text is
modelled at the line level: a text is a list of its lines.
-/

set_option maxRecDepth 4096

deriving instance DecidableEq for Except

/-- Character-list test: needle starts the haystack. -/
def chStarts : List Char → List Char → Bool
  | [], _ => true
  | _ :: _, [] => false
  | a :: as, b :: bs => a == b && chStarts as bs

/-- Character-list substring test. -/
def chSub (n : List Char) : List Char → Bool
  | [] => n.isEmpty
  | b :: bs => chStarts n (b :: bs) || chSub n bs

/-- String substring containment, used to state message and token facts. -/
def strContainsSub (needle hay : String) : Bool :=
  chSub needle.data hay.data

/-- Modelled from the spec: begin sentinel of the tracking marker (the
plugin constant TRACKING_MARKER_BEGIN); the tests pin that it is a comment
line starting with the hash character, carries the fixed tag
HELIX_TRACKING and the version token v1. -/
def TRACKING_MARKER_BEGIN : String := "# HELIX_TRACKING v1"

/-- Modelled from the spec: end sentinel of the tracking marker (the
plugin constant TRACKING_MARKER_END); the tests pin that it is a comment
line starting with the hash character, carries the tag HELIX_TRACKING and
a slash marking it as the closing sentinel. -/
def TRACKING_MARKER_END : String := "# /HELIX_TRACKING"

/-- Modelled from the spec: the single phase-set directive line placed
between the two sentinels; exact text taken from the strip tests of
test_helix_print.py. -/
def phaseDirective (ph : String) : String :=
  "SET_GCODE_VARIABLE MACRO=_HELIX_PHASE_STATE VARIABLE=phase VALUE=\x27\"" ++ ph ++ "\"\x27"

/-- Modelled from the spec: a full marker block, begin sentinel, one
directive line, end sentinel. -/
def markerBlock (ph : String) : List String :=
  [TRACKING_MARKER_BEGIN, phaseDirective ph, TRACKING_MARKER_END]

/-- Modelled from the spec: a line is a gcode comment line when it begins
with the comment token, which the tests pin as the hash character. -/
def isComment (l : String) : Bool :=
  chStarts "#".data l.data

/-- A phase pattern: alternative keyword texts and the phase name. -/
abbrev PhasePattern := List String × String

/-- Modelled from the spec: the fixed ordered eight-entry pattern table
(the plugin constant PHASE_PATTERNS); keywords and phase names pinned by
the tests.  A line matches an entry when one of its keywords occurs in the
line. -/
def PHASE_PATTERNS : List PhasePattern :=
  [ (["G28"], "HOMING"),
    (["QUAD_GANTRY_LEVEL"], "QGL"),
    (["Z_TILT_ADJUST"], "Z_TILT"),
    (["BED_MESH_CALIBRATE"], "BED_MESH"),
    (["CLEAN_NOZZLE", "WIPE_NOZZLE"], "CLEANING"),
    (["PURGE", "PURGE_LINE", "LINE_PURGE", "VORON_PURGE"], "PURGING"),
    (["M109"], "HEATING_NOZZLE"),
    (["M190"], "HEATING_BED") ]

/-- The phase names of the pattern table, in table order. -/
def tablePhases : List String := PHASE_PATTERNS.map (fun p => p.2)

/-- Every phase name the instrumenter can emit. -/
def allPhases : List String := "STARTING" :: "COMPLETE" :: tablePhases

/-- A line matches a pattern entry when some keyword of the entry occurs
in the line. -/
def patternMatches (p : PhasePattern) (l : String) : Bool :=
  p.1.any (fun k => strContainsSub k l)

/-- Modelled from the spec: scan the pattern table in order and return the
phase of the first entry that matches the line, if any. -/
def firstMatch : List PhasePattern → String → Option String
  | [], _ => none
  | p :: ps, l => if patternMatches p l then some p.2 else firstMatch ps l

/-- Modelled from the spec: per-line step of the instrumenter.  A comment
line is never matched and passes through unchanged; otherwise the first
matching table entry contributes one marker block immediately before the
line; a non-matching line passes through unchanged. -/
def instrumentLine (l : String) : List String :=
  if isComment l then [l]
  else
    match firstMatch PHASE_PATTERNS l with
    | some ph => markerBlock ph ++ [l]
    | none => [l]

/-- The per-line instrumented body of a text. -/
def instrumentBody : List String → List String
  | [] => []
  | l :: rest => instrumentLine l ++ instrumentBody rest

/-- Modelled from the spec: the instrument transform (_instrument_gcode).
Unconditionally opens with a STARTING marker block and closes with a
COMPLETE marker block, processing every line in original order. -/
def instrumentLines (ls : List String) : List String :=
  markerBlock "STARTING" ++ instrumentBody ls ++ markerBlock "COMPLETE"

/-- One pass of the strip transform.  The second argument is none while
scanning outside a span, and holds the tentatively dropped lines (in
reverse) after an unmatched begin sentinel; if the input ends before a
closing sentinel is found, the tentative span is restored untouched
(conservative policy on truncated sentinels). -/
def stripGo : List String → Option (List String) → List String
  | [], none => []
  | [], some pend => pend.reverse
  | l :: rest, none =>
    if l = TRACKING_MARKER_BEGIN then stripGo rest (some [l])
    else l :: stripGo rest none
  | l :: rest, some pend =>
    if l = TRACKING_MARKER_END then stripGo rest none
    else stripGo rest (some (l :: pend))

/-- Modelled from the spec: the strip transform (_strip_instrumentation).
Removes every contiguous span from a begin sentinel to its paired end
sentinel inclusive, leaving all other lines in place and in order. -/
def stripLines (ls : List String) : List String :=
  stripGo ls none

/-- One line equal to the given text occurs in the list. -/
def hasLine (t : String) : List String → Bool
  | [] => false
  | l :: rest => l == t || hasLine t rest

/-- The text holds a matched sentinel pair: a begin sentinel line with an
end sentinel line somewhere after it. -/
def hasMarkerPair : List String → Bool
  | [] => false
  | l :: rest =>
    (l == TRACKING_MARKER_BEGIN && hasLine TRACKING_MARKER_END rest) || hasMarkerPair rest

/-- Split a character list on the path separator. -/
def splitSegsAux : List Char → List Char → List (List Char)
  | [], cur => [cur.reverse]
  | c :: cs, cur =>
    if c = '/' then cur.reverse :: splitSegsAux cs [] else splitSegsAux cs (c :: cur)

/-- Split a path string into its slash-separated segments. -/
def splitPath (s : String) : List String :=
  (splitSegsAux s.data []).map String.mk

/-- Join segments back into a path string. -/
def joinPath : List String → String
  | [] => ""
  | [s] => s
  | s :: rest => s ++ "/" ++ joinPath rest

/-- The final path segment of a path string. -/
def basename (p : String) : String :=
  (splitPath p).getLastD ""

/-- Canonicalization worker: the first argument is the stack of kept
segments in reverse; a parent-directory segment pops the stack and fails
when the stack is empty, which is exactly an escape from the root. -/
def canonSegs : List String → List String → Option (List String)
  | stk, [] => some stk.reverse
  | stk, seg :: rest =>
    if seg = "" ∨ seg = "." then canonSegs stk rest
    else if seg = ".." then
      match stk with
      | [] => none
      | _ :: stk2 => canonSegs stk2 rest
    else canonSegs (seg :: stk) rest

/-- Modelled from the spec: canonicalize a root-relative path, returning
none when the path escapes the root by parent-directory traversal at any
nesting depth. -/
def canonicalize (rel : String) : Option String :=
  (canonSegs [] (splitPath rel)).map joinPath

/-- The filesystem as the engine observes it: the regular files and the
symbolic links that exist under the gcode root, by root-relative path. -/
structure FS where
  files : List String
  links : List (String × String)
deriving DecidableEq, Repr

/-- Modelled from the spec: error taxonomy of the dispatch path.  The
kind used to reject a traversal escape is not fixed by the spec, so it is
kept as its own constructor. -/
inductive HelixError where
  | disabledError (msg : String)
  | notFoundError (msg : String)
  | invalidPathError (msg : String)
deriving DecidableEq, Repr

/-- Modelled from the spec: PathResolver.resolve joins the relative path
to the configured gcode root after canonicalizing it, rejects an escaping
resolution, and verifies the target exists, failing with NotFoundError
whose message contains the text not found when it does not. -/
def PathResolver.resolve (root : String) (fs : FS) (rel : String) : Except HelixError String :=
  match canonicalize rel with
  | none => Except.error (HelixError.invalidPathError ("Invalid path: " ++ rel))
  | some p =>
    if fs.files.contains p then Except.ok (root ++ "/" ++ p)
    else Except.error (HelixError.notFoundError ("File not found: " ++ rel))

/-- One record per in-flight modified print. -/
structure PrintInfo where
  original_filename : String
  temp_filename : String
  symlink_filename : String
  modifications : List String
  start_time : Nat
  job_id : Option String
  db_id : Option Nat
deriving DecidableEq, Repr

/-- Result record of a successful print_modified request. -/
structure PrintResult where
  original_filename : String
  status : String
  temp_filename : String
  print_filename : String
deriving DecidableEq, Repr

/-- Recognized configuration options of the engine. -/
structure Config where
  enabled : Bool
  temp_dir : String
  symlink_dir : String
  cleanup_delay : Nat
deriving DecidableEq, Repr

/-- The mutable state the dispatcher touches: the filesystem view, the
active-print registry (an association list keyed by symlink filename) and
the commands sent so far to the print host. -/
structure DispatchState where
  fs : FS
  registry : List (String × PrintInfo)
  sent : List String
deriving DecidableEq, Repr

/-- Modelled from the spec: SymlinkManager.publish places a link at the
symlink directory under the given basename, first removing any entry
(file or stale link) already occupying the destination, and returns the
gcode-root-relative path of the new link. -/
def SymlinkManager.publish (cfg : Config) (fs : FS) (bname target : String) : String × FS :=
  let dest := cfg.symlink_dir ++ "/" ++ bname
  (dest,
    { files := fs.files.filter (fun f => f != dest),
      links := (dest, target) :: fs.links.filter (fun e => e.1 != dest) })

/-- Modelled from the spec: ActivePrintRegistry.put is a plain map
assignment keyed by symlink filename. -/
def ActivePrintRegistry.put (k : String) (v : PrintInfo)
    (reg : List (String × PrintInfo)) : List (String × PrintInfo) :=
  (k, v) :: reg.filter (fun e => e.1 != k)

/-- The start-print command sent to the print host, referencing the
published symlink path. -/
def startCommand (slName : String) : String :=
  "SDCARD_PRINT_FILE FILENAME=" ++ slName

/-- Modelled from the spec: the print_modified handler.  Preconditions in
order: engine enabled, original file resolves, temp file resolves; then
publish the link under the basename of the original, store one PrintInfo
keyed by the symlink filename, send one start command referencing the
symlink filename, and return the result record.  On failure the state is
returned untouched (no error is swallowed, no partial effect). -/
def handle_print_modified (cfg : Config) (root : String) (st : DispatchState)
    (orig temp : String) (mods : List String) (now : Nat) :
    Except HelixError PrintResult × DispatchState :=
  if cfg.enabled = false then
    (Except.error (HelixError.disabledError "helix_print is disabled"), st)
  else
    match PathResolver.resolve root st.fs orig with
    | Except.error e => (Except.error e, st)
    | Except.ok _ =>
      match PathResolver.resolve root st.fs temp with
      | Except.error e => (Except.error e, st)
      | Except.ok ptemp =>
        let pub := SymlinkManager.publish cfg st.fs (basename orig) ptemp
        let slName := pub.1
        let info : PrintInfo :=
          { original_filename := orig, temp_filename := temp,
            symlink_filename := slName, modifications := mods,
            start_time := now, job_id := none, db_id := none }
        (Except.ok
          { original_filename := orig, status := "printing",
            temp_filename := temp, print_filename := slName },
         { fs := pub.2,
           registry := ActivePrintRegistry.put slName info st.registry,
           sent := st.sent ++ [startCommand slName] })

/-- Number of occurrences of a given line in a list of lines. -/
def countLine (t : String) : List String → Nat
  | [] => 0
  | l :: rest => (if l = t then 1 else 0) + countLine t rest

/-- Association-list lookup by string key. -/
def alookup {β : Type} (k : String) : List (String × β) → Option β
  | [] => none
  | e :: rest => if e.1 = k then some e.2 else alookup k rest

/-! Helper lemmas. -/

/-- Appending strings appends their character data. -/
theorem strData_append (a b : String) : (a ++ b).data = a.data ++ b.data := by
  cases a
  cases b
  rfl

/-- A start match survives appending to the haystack. -/
theorem chStarts_append (n h t : List Char) (hp : chStarts n h = true) :
    chStarts n (h ++ t) = true := by
  induction n generalizing h with
  | nil => simp [chStarts]
  | cons a as ih =>
    cases h with
    | nil => simp [chStarts] at hp
    | cons b bs =>
      simp [chStarts] at hp ⊢
      exact ⟨hp.1, ih bs hp.2⟩

/-- The empty needle occurs everywhere. -/
theorem chSub_nil (t : List Char) : chSub [] t = true := by
  cases t <;> simp [chSub, chStarts, List.isEmpty]

/-- A substring match survives appending to the right. -/
theorem chSub_append_left (n h t : List Char) (hp : chSub n h = true) :
    chSub n (h ++ t) = true := by
  induction h with
  | nil =>
    have hn : n = [] := by
      cases n with
      | nil => rfl
      | cons c cs => simp [chSub, List.isEmpty] at hp
    subst hn
    exact chSub_nil t
  | cons b bs ih =>
    simp [chSub] at hp ⊢
    rcases hp with hp | hp
    · exact Or.inl (chStarts_append n (b :: bs) t hp)
    · exact Or.inr (ih hp)

/-- A substring match survives prepending to the left. -/
theorem chSub_append_right (n h t : List Char) (hp : chSub n t = true) :
    chSub n (h ++ t) = true := by
  induction h with
  | nil => simpa using hp
  | cons b bs ih =>
    simp [chSub]
    exact Or.inr (by simpa using ih)

/-- Every list starts with itself. -/
theorem chStarts_self (n : List Char) : chStarts n n = true := by
  induction n with
  | nil => rfl
  | cons a as ih => simp [chStarts, ih]

/-- Every list occurs in itself. -/
theorem chSub_self (n : List Char) : chSub n n = true := by
  cases n with
  | nil => rfl
  | cons a as => simp [chSub, chStarts_self]

/-- Containment in a string survives appending to the right. -/
theorem strContains_append_left (n a b : String) (hp : strContainsSub n a = true) :
    strContainsSub n (a ++ b) = true := by
  unfold strContainsSub at hp ⊢
  rw [strData_append]
  exact chSub_append_left _ _ _ hp

/-- A string occurs in any string having it as a suffix. -/
theorem strContains_suffix (n h : String) : strContainsSub n (h ++ n) = true := by
  unfold strContainsSub
  rw [strData_append]
  exact chSub_append_right _ _ _ (chSub_self _)

/-- When a line does not occur in a list, no member equals it. -/
theorem hasLine_eq_false {t : String} : ∀ {ls : List String}, hasLine t ls = false →
    ∀ l ∈ ls, l ≠ t := by
  intro ls
  induction ls with
  | nil => intro _ l hl; simp at hl
  | cons a rest ih =>
    intro h l hl
    simp [hasLine] at h
    rcases List.mem_cons.mp hl with rfl | hl
    · exact h.1
    · exact ih h.2 l hl

/-- A pending span with no closing sentinel in the remainder is restored
untouched at the end of the input. -/
theorem stripGo_pend (ls : List String) (hn : ∀ l ∈ ls, l ≠ TRACKING_MARKER_END) :
    ∀ pend, stripGo ls (some pend) = pend.reverse ++ ls := by
  induction ls with
  | nil => intro pend; simp [stripGo]
  | cons l rest ih =>
    intro pend
    have hl : l ≠ TRACKING_MARKER_END := hn l (List.mem_cons_self _ _)
    have hrest : ∀ x ∈ rest, x ≠ TRACKING_MARKER_END :=
      fun x hx => hn x (List.mem_cons_of_mem _ hx)
    simp [stripGo, hl, ih hrest]

/-- The directive line of any emitted phase is neither sentinel. -/
theorem phases_dir_ok : ∀ ph ∈ allPhases,
    phaseDirective ph ≠ TRACKING_MARKER_BEGIN ∧ phaseDirective ph ≠ TRACKING_MARKER_END := by
  decide

/-- Stripping consumes a whole marker block at the head. -/
theorem stripGo_block (ph : String) (rest : List String)
    (hd : phaseDirective ph ≠ TRACKING_MARKER_END) :
    stripGo (markerBlock ph ++ rest) none = stripGo rest none := by
  simp [markerBlock, stripGo, hd]

/-- The phase returned by the table scan is a phase of the table. -/
theorem firstMatch_mem : ∀ (ps : List PhasePattern) (l ph : String),
    firstMatch ps l = some ph → ph ∈ ps.map (fun p => p.2) := by
  intro ps l
  induction ps with
  | nil => intro ph h; simp [firstMatch] at h
  | cons p rest ih =>
    intro ph h
    cases hm : patternMatches p l with
    | true =>
      rw [firstMatch, if_pos hm] at h
      simp at h
      simp [h]
    | false =>
      rw [firstMatch, if_neg (by simp [hm])] at h
      simp [ih ph h]

/-- Shape of the per-line step: unchanged, or one block then the line. -/
theorem instrumentLine_shape (l : String) :
    instrumentLine l = [l] ∨
      ∃ ph, ph ∈ tablePhases ∧ instrumentLine l = markerBlock ph ++ [l] := by
  cases hc : isComment l with
  | true => exact Or.inl (by simp [instrumentLine, hc])
  | false =>
    cases hm : firstMatch PHASE_PATTERNS l with
    | none => exact Or.inl (by simp [instrumentLine, hc, hm])
    | some ph =>
      refine Or.inr ⟨ph, ?_, by simp [instrumentLine, hc, hm]⟩
      rw [tablePhases]
      exact firstMatch_mem _ _ _ hm

/-- A non-comment line is not the begin sentinel, which is a comment. -/
theorem ne_begin_of_not_comment {l : String} (hc : isComment l = false) :
    l ≠ TRACKING_MARKER_BEGIN := by
  intro h
  rw [h] at hc
  have hb : isComment TRACKING_MARKER_BEGIN = true := by decide
  rw [hb] at hc
  exact Bool.noConfusion hc

/-- Stripping the instrumented body followed by one closing block returns
the original lines, provided none of them is the begin sentinel. -/
theorem stripGo_body (ph : String) (hph : ph ∈ allPhases) :
    ∀ ls : List String, (∀ l ∈ ls, l ≠ TRACKING_MARKER_BEGIN) →
      stripGo (instrumentBody ls ++ markerBlock ph) none = ls := by
  intro ls
  induction ls with
  | nil =>
    intro _
    have hd := (phases_dir_ok ph hph).2
    simp [instrumentBody]
    rw [show markerBlock ph = markerBlock ph ++ [] by simp, stripGo_block ph [] hd]
    rfl
  | cons l rest ih =>
    intro hn
    have hl : l ≠ TRACKING_MARKER_BEGIN := hn l (List.mem_cons_self _ _)
    have hrest : ∀ x ∈ rest, x ≠ TRACKING_MARKER_BEGIN :=
      fun x hx => hn x (List.mem_cons_of_mem _ hx)
    rcases instrumentLine_shape l with hsh | ⟨ph2, hph2, hsh⟩
    · rw [instrumentBody, hsh]
      simp only [List.cons_append, List.nil_append]
      simp [stripGo, hl, ih hrest]
    · rw [instrumentBody, hsh]
      have hph2all : ph2 ∈ allPhases :=
        List.mem_cons_of_mem _ (List.mem_cons_of_mem _ hph2)
      have hd2 := (phases_dir_ok ph2 hph2all).2
      simp only [List.append_assoc]
      rw [stripGo_block ph2 _ hd2]
      simp only [List.cons_append, List.nil_append]
      simp [stripGo, hl, ih hrest]

/-- The table scan returns the first matching entry, in table order. -/
theorem firstMatch_at : ∀ (ps : List PhasePattern) (l : String) (i : Nat) (hi : i < ps.length),
    patternMatches (ps.get ⟨i, hi⟩) l = true →
    (∀ j (hj : j < i), patternMatches (ps.get ⟨j, Nat.lt_trans hj hi⟩) l = false) →
    firstMatch ps l = some (ps.get ⟨i, hi⟩).2 := by
  intro ps
  induction ps with
  | nil => intro l i hi; simp at hi
  | cons p rest ih =>
    intro l i hi hm hprev
    cases i with
    | zero =>
      simp only [List.get] at hm ⊢
      simp [firstMatch, hm]
    | succ k =>
      have h0 : patternMatches p l = false := by
        have := hprev 0 (Nat.succ_pos k)
        simpa using this
      have hk : k < rest.length := Nat.lt_of_succ_lt_succ hi
      have hm2 : patternMatches (rest.get ⟨k, hk⟩) l = true := by
        simpa using hm
      have hprev2 : ∀ j (hj : j < k),
          patternMatches (rest.get ⟨j, Nat.lt_trans hj hk⟩) l = false := by
        intro j hj
        have := hprev (j + 1) (Nat.succ_lt_succ hj)
        simpa using this
      rw [firstMatch, if_neg (by simp [h0])]
      have := ih l k hk hm2 hprev2
      simpa using this

/-- Filtering out an absent key changes nothing. -/
theorem alookup_none_filter {β : Type} (k : String) :
    ∀ reg : List (String × β), alookup k reg = none →
      reg.filter (fun e => e.1 != k) = reg := by
  intro reg
  induction reg with
  | nil => intro _; rfl
  | cons e rest ih =>
    intro h
    by_cases he : e.1 = k
    · simp [alookup, he] at h
    · rw [alookup, if_neg he] at h
      simp [List.filter_cons, bne_iff_ne, he, ih h]

/-! Claim theorems. -/

/-- Claim C10: the tracking marker sentinels are single comment lines
beginning with the hash character, which is the comment token the engine
recognizes (a semicolon line is not a comment to it); both sentinels carry
the fixed tag HELIX_TRACKING, the begin sentinel carries the version token
v1, and the end sentinel carries the slash marking it as closing. -/
theorem claim_C10_marker_constants :
    isComment TRACKING_MARKER_BEGIN = true ∧
    isComment TRACKING_MARKER_END = true ∧
    isComment "; G28 semicolon comment" = false ∧
    strContainsSub "HELIX_TRACKING" TRACKING_MARKER_BEGIN = true ∧
    strContainsSub "HELIX_TRACKING" TRACKING_MARKER_END = true ∧
    strContainsSub "v1" TRACKING_MARKER_BEGIN = true ∧
    strContainsSub "/" TRACKING_MARKER_END = true := by
  decide

/-- Claim C6: a comment line is never matched against any phase pattern
and passes through the instrumenter unchanged, so a phase-like keyword
appearing only inside a comment produces no phase marker. -/
theorem claim_C6_comment_passthrough (l : String) (hc : isComment l = true) :
    instrumentLine l = [l] := by
  simp [instrumentLine, hc]

/-- Claim C6 witness: a comment line holding the homing keyword passes
through unchanged even though the keyword occurs in it. -/
theorem claim_C6_comment_passthrough_witness :
    strContainsSub "G28" "# G28 - this is just a comment" = true ∧
    instrumentLine "# G28 - this is just a comment" = ["# G28 - this is just a comment"] :=
  ⟨by decide, claim_C6_comment_passthrough _ (by decide)⟩

/-- Claim C7: for every input, including the empty one, the instrumented
text opens with a STARTING marker block and closes with a COMPLETE marker
block; the transform is a total function, so it never fails. -/
theorem claim_C7_start_complete_blocks (ls : List String) :
    ∃ mid, instrumentLines ls =
      [TRACKING_MARKER_BEGIN, phaseDirective "STARTING", TRACKING_MARKER_END] ++ mid
        ++ [TRACKING_MARKER_BEGIN, phaseDirective "COMPLETE", TRACKING_MARKER_END] :=
  ⟨instrumentBody ls, by simp [instrumentLines, markerBlock]⟩

/-- Claim C2: for gcode lines holding no pre-existing tracking markers,
stripping the instrumented text returns every original line in original
order (in fact exactly the original lines) and the result holds no begin
or end sentinel line. -/
theorem claim_C2_roundtrip (ls : List String)
    (hm : ∀ l ∈ ls, l ≠ TRACKING_MARKER_BEGIN ∧ l ≠ TRACKING_MARKER_END) :
    stripLines (instrumentLines ls) = ls ∧
    ∀ l ∈ stripLines (instrumentLines ls),
      l ≠ TRACKING_MARKER_BEGIN ∧ l ≠ TRACKING_MARKER_END := by
  have hmb : ∀ l ∈ ls, l ≠ TRACKING_MARKER_BEGIN := fun l hl => (hm l hl).1
  have heq : stripLines (instrumentLines ls) = ls := by
    have hS : phaseDirective "STARTING" ≠ TRACKING_MARKER_END :=
      (phases_dir_ok "STARTING" (by decide)).2
    unfold stripLines instrumentLines
    rw [List.append_assoc, stripGo_block "STARTING" _ hS]
    exact stripGo_body "COMPLETE" (by decide) ls hmb
  refine ⟨heq, ?_⟩
  rw [heq]
  exact hm

/-- Claim C2 witness: the roundtrip on a concrete marker-free start
sequence returns it unchanged. -/
theorem claim_C2_roundtrip_witness :
    (∀ l ∈ ["G28", "QUAD_GANTRY_LEVEL", "M109 S220", "LINE_PURGE"],
        l ≠ TRACKING_MARKER_BEGIN ∧ l ≠ TRACKING_MARKER_END) ∧
    stripLines (instrumentLines ["G28", "QUAD_GANTRY_LEVEL", "M109 S220", "LINE_PURGE"]) =
      ["G28", "QUAD_GANTRY_LEVEL", "M109 S220", "LINE_PURGE"] :=
  ⟨by decide, (claim_C2_roundtrip _ (by decide)).1⟩

/-- Claim C8: strip is the identity on every text holding no matched
begin/end sentinel pair; in particular unmatched or truncated sentinel
lines are left in place untouched rather than removed or repaired. -/
theorem claim_C8_strip_identity (ls : List String) (h : hasMarkerPair ls = false) :
    stripLines ls = ls := by
  induction ls with
  | nil => rfl
  | cons l rest ih =>
    rw [hasMarkerPair] at h
    have h2 : hasMarkerPair rest = false := by
      cases hmp : hasMarkerPair rest
      · rfl
      · rw [hmp] at h; simp at h
    by_cases hl : l = TRACKING_MARKER_BEGIN
    · have hml : hasLine TRACKING_MARKER_END rest = false := by
        cases hml : hasLine TRACKING_MARKER_END rest
        · rfl
        · rw [hml, hl] at h; simp at h
      have hnoME := hasLine_eq_false hml
      subst hl
      simp [stripLines, stripGo, stripGo_pend rest hnoME [TRACKING_MARKER_BEGIN]]
    · simp only [stripLines, stripGo, if_neg hl]
      rw [show stripGo rest none = stripLines rest from rfl, ih h2]

/-- Claim C8 witness: a text holding only an unmatched end sentinel and a
trailing unmatched begin sentinel is returned byte-identical. -/
theorem claim_C8_strip_identity_witness :
    hasMarkerPair [TRACKING_MARKER_END, "G28", TRACKING_MARKER_BEGIN] = false ∧
    stripLines [TRACKING_MARKER_END, "G28", TRACKING_MARKER_BEGIN] =
      [TRACKING_MARKER_END, "G28", TRACKING_MARKER_BEGIN] :=
  ⟨by decide, claim_C8_strip_identity _ (by decide)⟩

/-- Claim C5: for every non-comment line, the instrumenter inserts at most
one marker block, and when the line matches some entries of the fixed
pattern table the block inserted is the one of the first matching entry in
table order. -/
theorem claim_C5_first_match_wins (l : String) (hc : isComment l = false) :
    countLine TRACKING_MARKER_BEGIN (instrumentLine l) ≤ 1 ∧
    ∀ i (hi : i < PHASE_PATTERNS.length),
      patternMatches (PHASE_PATTERNS.get ⟨i, hi⟩) l = true →
      (∀ j (hj : j < i), patternMatches (PHASE_PATTERNS.get ⟨j, Nat.lt_trans hj hi⟩) l = false) →
      instrumentLine l = markerBlock (PHASE_PATTERNS.get ⟨i, hi⟩).2 ++ [l] := by
  constructor
  · have hlb : l ≠ TRACKING_MARKER_BEGIN := ne_begin_of_not_comment hc
    rcases instrumentLine_shape l with hsh | ⟨ph, hph, hsh⟩
    · rw [hsh]
      simp [countLine, hlb]
    · rw [hsh]
      have hd : phaseDirective ph ≠ TRACKING_MARKER_BEGIN :=
        (phases_dir_ok ph (List.mem_cons_of_mem _ (List.mem_cons_of_mem _ hph))).1
      have hme : TRACKING_MARKER_END ≠ TRACKING_MARKER_BEGIN := by decide
      simp [markerBlock, countLine, hd, hme, hlb]
  · intro i hi hmatch hprev
    have hfm := firstMatch_at PHASE_PATTERNS l i hi hmatch hprev
    simp [instrumentLine, hc, hfm]

/-- Claim C5 witness: a line matching both the homing entry and the
nozzle-heating entry receives exactly the marker of the earlier entry. -/
theorem claim_C5_first_match_wins_witness :
    isComment "G28 M109" = false ∧
    patternMatches (PHASE_PATTERNS.get ⟨0, by decide⟩) "G28 M109" = true ∧
    patternMatches (PHASE_PATTERNS.get ⟨6, by decide⟩) "G28 M109" = true ∧
    instrumentLine "G28 M109" = markerBlock (PHASE_PATTERNS.get ⟨0, by decide⟩).2 ++ ["G28 M109"] :=
  ⟨by decide, by decide, by decide,
    (claim_C5_first_match_wins "G28 M109" (by decide)).2 0 (by decide) (by decide)
      (fun j hj => absurd hj (Nat.not_lt_zero j))⟩

/-- Claim C3: with the engine configured disabled, every print_modified
request fails with a message containing the text disabled, for every
state and every pair of filenames (so before and independent of any file
resolution), and the state is untouched. -/
theorem claim_C3_disabled (cfg : Config) (root : String) (st : DispatchState)
    (orig temp : String) (mods : List String) (now : Nat)
    (hd : cfg.enabled = false) :
    handle_print_modified cfg root st orig temp mods now =
      (Except.error (HelixError.disabledError "helix_print is disabled"), st) ∧
    strContainsSub "disabled" "helix_print is disabled" = true := by
  refine ⟨?_, by decide⟩
  simp [handle_print_modified, hd]

/-- Claim C3 witness: a disabled engine rejects a request even when both
the original and the temp file exist. -/
theorem claim_C3_disabled_witness :
    handle_print_modified ⟨false, ".helix_temp", ".helix_print", 3600⟩ "/gcodes"
        ⟨⟨["test.gcode", ".helix_temp/mod_test.gcode"], []⟩, [], []⟩
        "test.gcode" ".helix_temp/mod_test.gcode" [] 0 =
      (Except.error (HelixError.disabledError "helix_print is disabled"),
        ⟨⟨["test.gcode", ".helix_temp/mod_test.gcode"], []⟩, [], []⟩) ∧
    strContainsSub "disabled" "helix_print is disabled" = true :=
  claim_C3_disabled _ _ _ _ _ _ _ rfl

/-- Claim C4: with the engine enabled, a request whose original filename
canonicalizes inside the root but names no existing file fails with a
message containing the text not found, and on this failure the whole state
is untouched: no filesystem link is created and the registry is
unchanged. -/
theorem claim_C4_not_found_atomic (cfg : Config) (root : String) (st : DispatchState)
    (orig temp : String) (mods : List String) (now : Nat) (p : String)
    (he : cfg.enabled = true)
    (hcanon : canonicalize orig = some p)
    (hmiss : st.fs.files.contains p = false) :
    handle_print_modified cfg root st orig temp mods now =
      (Except.error (HelixError.notFoundError ("File not found: " ++ orig)), st) ∧
    strContainsSub "not found" ("File not found: " ++ orig) = true := by
  constructor
  · have hmiss2 : p ∉ st.fs.files := by simpa using hmiss
    have hres : PathResolver.resolve root st.fs orig =
        Except.error (HelixError.notFoundError ("File not found: " ++ orig)) := by
      simp [PathResolver.resolve, hcanon, hmiss2]
    simp [handle_print_modified, he, hres]
  · exact strContains_append_left "not found" "File not found: " orig (by decide)

/-- Claim C4 witness: a missing original is rejected with the state, and
so registry size and links, unchanged. -/
theorem claim_C4_not_found_atomic_witness :
    handle_print_modified ⟨true, ".helix_temp", ".helix_print", 3600⟩ "/gcodes"
        ⟨⟨[".helix_temp/mod_benchy.gcode"], []⟩, [], []⟩
        "nonexistent.gcode" ".helix_temp/mod_benchy.gcode" [] 0 =
      (Except.error (HelixError.notFoundError ("File not found: " ++ "nonexistent.gcode")),
        ⟨⟨[".helix_temp/mod_benchy.gcode"], []⟩, [], []⟩) ∧
    strContainsSub "not found" ("File not found: " ++ "nonexistent.gcode") = true :=
  claim_C4_not_found_atomic _ _ _ _ _ _ _ "nonexistent.gcode" rfl (by decide) (by decide)

/-- Claim C9: the resolver maps a canonicalizable relative path naming an
existing file (at any nesting depth) to its location under the root,
fails with NotFoundError whose message contains the text not found when
the target does not exist, and never returns a resolution for a path
whose canonicalization escapes the root by parent-directory traversal. -/
theorem claim_C9_path_resolution (root : String) (fs : FS) (rel : String) :
    (∀ p, canonicalize rel = some p → fs.files.contains p = true →
      PathResolver.resolve root fs rel = Except.ok (root ++ "/" ++ p)) ∧
    (∀ p, canonicalize rel = some p → fs.files.contains p = false →
      PathResolver.resolve root fs rel =
        Except.error (HelixError.notFoundError ("File not found: " ++ rel)) ∧
      strContainsSub "not found" ("File not found: " ++ rel) = true) ∧
    (canonicalize rel = none →
      ∀ q, PathResolver.resolve root fs rel ≠ Except.ok q) := by
  refine ⟨?_, ?_, ?_⟩
  · intro p hc hm
    have hm2 : p ∈ fs.files := by simpa using hm
    simp [PathResolver.resolve, hc, hm2]
  · intro p hc hm
    have hm2 : p ∉ fs.files := by simpa using hm
    exact ⟨by simp [PathResolver.resolve, hc, hm2],
      strContains_append_left "not found" "File not found: " rel (by decide)⟩
  · intro hc q
    simp [PathResolver.resolve, hc]

/-- Claim C9 witness: a nested subdirectory path resolves, a missing
nested target is a not-found failure, and a traversal escaping the root
after nesting is rejected. -/
theorem claim_C9_path_resolution_witness :
    PathResolver.resolve "/gcodes" ⟨["prints/2024/benchy.gcode"], []⟩ "prints/2024/benchy.gcode" =
      Except.ok ("/gcodes" ++ "/" ++ "prints/2024/benchy.gcode") ∧
    PathResolver.resolve "/gcodes" ⟨["prints/2024/benchy.gcode"], []⟩ "prints/2024/missing.gcode" =
      Except.error (HelixError.notFoundError ("File not found: " ++ "prints/2024/missing.gcode")) ∧
    ∀ q, PathResolver.resolve "/gcodes" ⟨["prints/2024/benchy.gcode"], []⟩
        "prints/a/../../../etc/passwd" ≠ Except.ok q :=
  ⟨(claim_C9_path_resolution "/gcodes" ⟨["prints/2024/benchy.gcode"], []⟩
      "prints/2024/benchy.gcode").1 "prints/2024/benchy.gcode" (by decide) (by decide),
   ((claim_C9_path_resolution "/gcodes" ⟨["prints/2024/benchy.gcode"], []⟩
      "prints/2024/missing.gcode").2.1 "prints/2024/missing.gcode" (by decide) (by decide)).1,
   (claim_C9_path_resolution "/gcodes" ⟨["prints/2024/benchy.gcode"], []⟩
      "prints/a/../../../etc/passwd").2.2 (by decide)⟩

/-- Claim C1: every successful print_modified call with an enabled engine
and resolvable original and temp files publishes a link named after the
basename of the original under the symlink directory, stores exactly one
new registry entry keyed by that symlink filename whose
original filename and modifications equal the request inputs with order
preserved, appends exactly one start command referencing the symlink
filename, and returns the result record with the original filename,
status printing, the temp filename and the symlink filename. -/
theorem claim_C1_dispatch_success (cfg : Config) (root : String) (st : DispatchState)
    (orig temp : String) (mods : List String) (now : Nat) (po pt slName : String)
    (he : cfg.enabled = true)
    (h1 : PathResolver.resolve root st.fs orig = Except.ok po)
    (h2 : PathResolver.resolve root st.fs temp = Except.ok pt)
    (hs : slName = cfg.symlink_dir ++ "/" ++ basename orig)
    (hfresh : alookup slName st.registry = none) :
    (handle_print_modified cfg root st orig temp mods now).1 =
      Except.ok { original_filename := orig, status := "printing",
                  temp_filename := temp, print_filename := slName } ∧
    (handle_print_modified cfg root st orig temp mods now).2.registry =
      (slName, { original_filename := orig, temp_filename := temp,
                 symlink_filename := slName, modifications := mods,
                 start_time := now, job_id := none, db_id := none }) :: st.registry ∧
    (handle_print_modified cfg root st orig temp mods now).2.sent =
      st.sent ++ [startCommand slName] ∧
    strContainsSub slName (startCommand slName) = true ∧
    alookup slName (handle_print_modified cfg root st orig temp mods now).2.fs.links = some pt := by
  subst hs
  have hmain : handle_print_modified cfg root st orig temp mods now =
      (Except.ok { original_filename := orig, status := "printing",
                   temp_filename := temp,
                   print_filename := cfg.symlink_dir ++ "/" ++ basename orig },
       { fs := { files := st.fs.files.filter
                   (fun f => f != cfg.symlink_dir ++ "/" ++ basename orig),
                 links := (cfg.symlink_dir ++ "/" ++ basename orig, pt) ::
                   st.fs.links.filter
                     (fun e => e.1 != cfg.symlink_dir ++ "/" ++ basename orig) },
         registry := ActivePrintRegistry.put (cfg.symlink_dir ++ "/" ++ basename orig)
           { original_filename := orig, temp_filename := temp,
             symlink_filename := cfg.symlink_dir ++ "/" ++ basename orig,
             modifications := mods, start_time := now, job_id := none, db_id := none }
           st.registry,
         sent := st.sent ++ [startCommand (cfg.symlink_dir ++ "/" ++ basename orig)] }) := by
    simp [handle_print_modified, he, h1, h2, SymlinkManager.publish]
  refine ⟨?_, ?_, ?_, ?_, ?_⟩
  · rw [hmain]
  · rw [hmain]
    simp only [ActivePrintRegistry.put]
    rw [alookup_none_filter _ st.registry hfresh]
  · rw [hmain]
  · exact strContains_suffix _ "SDCARD_PRINT_FILE FILENAME="
  · rw [hmain]
    simp [alookup]

/-- Claim C1 witness: the scenario of the tests, with original
benchy.gcode and a pre-uploaded temp file, dispatches successfully with
the expected link, registry entry, start command and result. -/
theorem claim_C1_dispatch_success_witness :
    (handle_print_modified ⟨true, ".helix_temp", ".helix_print", 3600⟩ "/gcodes"
        ⟨⟨["benchy.gcode", ".helix_temp/mod_benchy.gcode"], []⟩, [], []⟩
        "benchy.gcode" ".helix_temp/mod_benchy.gcode" ["bed_leveling_disabled"] 7).1 =
      Except.ok { original_filename := "benchy.gcode", status := "printing",
                  temp_filename := ".helix_temp/mod_benchy.gcode",
                  print_filename := ".helix_print/benchy.gcode" } ∧
    (handle_print_modified ⟨true, ".helix_temp", ".helix_print", 3600⟩ "/gcodes"
        ⟨⟨["benchy.gcode", ".helix_temp/mod_benchy.gcode"], []⟩, [], []⟩
        "benchy.gcode" ".helix_temp/mod_benchy.gcode" ["bed_leveling_disabled"] 7).2.registry =
      [(".helix_print/benchy.gcode",
        { original_filename := "benchy.gcode",
          temp_filename := ".helix_temp/mod_benchy.gcode",
          symlink_filename := ".helix_print/benchy.gcode",
          modifications := ["bed_leveling_disabled"],
          start_time := 7, job_id := none, db_id := none })] ∧
    (handle_print_modified ⟨true, ".helix_temp", ".helix_print", 3600⟩ "/gcodes"
        ⟨⟨["benchy.gcode", ".helix_temp/mod_benchy.gcode"], []⟩, [], []⟩
        "benchy.gcode" ".helix_temp/mod_benchy.gcode" ["bed_leveling_disabled"] 7).2.sent =
      [startCommand ".helix_print/benchy.gcode"] ∧
    strContainsSub ".helix_print/benchy.gcode" (startCommand ".helix_print/benchy.gcode") = true ∧
    alookup ".helix_print/benchy.gcode"
      (handle_print_modified ⟨true, ".helix_temp", ".helix_print", 3600⟩ "/gcodes"
        ⟨⟨["benchy.gcode", ".helix_temp/mod_benchy.gcode"], []⟩, [], []⟩
        "benchy.gcode" ".helix_temp/mod_benchy.gcode" ["bed_leveling_disabled"] 7).2.fs.links =
      some "/gcodes/.helix_temp/mod_benchy.gcode" :=
  claim_C1_dispatch_success ⟨true, ".helix_temp", ".helix_print", 3600⟩ "/gcodes"
    ⟨⟨["benchy.gcode", ".helix_temp/mod_benchy.gcode"], []⟩, [], []⟩
    "benchy.gcode" ".helix_temp/mod_benchy.gcode" ["bed_leveling_disabled"] 7
    "/gcodes/benchy.gcode" "/gcodes/.helix_temp/mod_benchy.gcode"
    ".helix_print/benchy.gcode" rfl (by decide) (by decide) (by decide) rfl
